import Mathlib

/-!
Verification development for the CVAT media extraction and chunking pipeline
(`cvat/apps/engine/media_extractors.py`).

The Python code is shallowly embedded: readers and writers become structures
holding the fields their `__init__` sets, iteration becomes explicit index
lists, and fallible operations return `Except`.  Machine integers are `Nat`
(the relevant quantities — frame indices, pixel dimensions, qualities — are
non-negative and far from any overflow boundary).

Layout: all definitions first, then all theorems.
-/

/-! # Definitions -/

/-- `DimensionType` from `cvat.apps.engine.models`: datasets are 2D imagery
or 3D point-cloud data. -/
inductive DimensionType where
  | DIM_2D
  | DIM_3D
deriving DecidableEq, Repr

/-- Python exception classes raised by the embedded code paths. -/
inductive PyError where
  | valueError
  | unicodeDecodeError
  | typeError
  | keyError
deriving DecidableEq, Repr

/-- The list of indices produced by Python `range(start, stop, step)` for a
positive step: `start, start + step, start + 2 * step, ...` strictly below
`stop`.  A non-positive step yields the empty list (Python would raise for
`step = 0`; the readers below never construct that case).
`IMediaReader.frame_range` is `range(self._start, self._stop, self._step)`,
`__len__` is `len(self.frame_range)`, and `ImageListReader.__iter__` iterates
that same range. -/
def pythonRange (start stop step : Nat) : List Nat :=
  if _h : 0 < step ∧ start < stop then
    start :: pythonRange (start + step) stop step
  else
    []
termination_by stop - start
decreasing_by omega

/-- State of an `ImageListReader` after a successful `__init__`: the
normalized `(step, start, stop)` window stored on `IMediaReader` (the sorted
path list itself only matters through its length for the claims below). -/
structure ImageListReader where
  step : Nat
  start : Nat
  stop : Nat
deriving DecidableEq, Repr

/-- The normalized stop computed by `ImageListReader.__init__`:
`len(source_path)` when `stop` is `None`, else `min(len(source_path), stop + 1)`. -/
def effectiveStop (numPaths : Nat) (stop : Option Nat) : Nat :=
  match stop with
  | none => numPaths
  | some s => min numPaths (s + 1)

/-- `ImageListReader.__init__` over a path list of length `numPaths`.
Mirrors the source: an empty list raises (`none`); `stop` defaults to
`len(source_path)` and is otherwise clamped to `min(len(source_path), stop + 1)`;
`step` is clamped to at least 1; `assert stop > start` failing raises. -/
def ImageListReader.init (numPaths step start : Nat) (stop : Option Nat) :
    Option ImageListReader :=
  if numPaths = 0 then none
  else if start < effectiveStop numPaths stop then
    some ⟨max step 1, start, effectiveStop numPaths stop⟩
  else none

/-- The indices yielded by `ImageListReader.__iter__`
(`for i in range(self._start, self._stop, self._step)`). -/
def ImageListReader.iterIndices (r : ImageListReader) : List Nat :=
  pythonRange r.start r.stop r.step

/-- `IMediaReader.__len__`: `len(range(self._start, self._stop, self._step))`. -/
def ImageListReader.length (r : ImageListReader) : Nat :=
  (pythonRange r.start r.stop r.step).length

/-- State of a `VideoReader` after `__init__`: the stored `(step, start, stop)`
window.  `__init__` passes `stop + 1 if stop is not None else stop` to the
base class, so the stored stop is the requested stop extended by one. -/
structure VideoReader where
  step : Nat
  start : Nat
  stop : Option Nat
deriving DecidableEq, Repr

/-- `VideoReader.__init__(source_path, step, start, stop)`. -/
def VideoReader.init (step start : Nat) (stop : Option Nat) : VideoReader :=
  ⟨step, start, match stop with
    | none => none
    | some s => some (s + 1)⟩

/-- `VideoReader._has_frame(i)`: `i >= start`, `(i - start) % step == 0`, and
`stop is None or i < stop` (on the stored, already-extended stop). -/
def VideoReader._has_frame (r : VideoReader) (i : Nat) : Bool :=
  if r.start ≤ i then
    if (i - r.start) % r.step == 0 then
      match r.stop with
      | none => true
      | some s => decide (i < s)
    else false
  else false

/-- The zero-based decode positions yielded by `VideoReader._decode`: the
decoder counts decoded video frames `frame_num` starting at 1 and yields the
frame when `_has_frame(frame_num - 1)` holds, so over `numFrames` decoded
frames the yielded positions are exactly the `i < numFrames` passing
`_has_frame`. -/
def VideoReader.decodedPositions (r : VideoReader) (numFrames : Nat) : List Nat :=
  (List.range numFrames).filter (fun i => r._has_frame i)

/-- A decoded `av` video frame: a presentation timestamp and the raw pixel
array, abstracted as a pair of an opaque buffer id and a cumulative
orientation in degrees. -/
structure AVFrame where
  pts : Int
  data : Nat × Int
deriving DecidableEq, Repr

/-- Modelled from the spec: `rotate_image` lives in `cvat.apps.engine.utils`,
which is not part of the sources; the spec says it rotates the raw decoded
pixel array by the given number of degrees.  A pixel array is modelled as
`(buffer, orientation)` and rotation as adding the angle to the orientation
modulo 360. -/
def rotate_image (data : Nat × Int) (degrees : Int) : Nat × Int :=
  (data.1, (data.2 + degrees) % 360)

/-- The per-frame transform of `VideoReader._decode`: when the container
stream declares `rotate` metadata `r`, the yielded frame is rebuilt from
`rotate_image(image.to_ndarray(), 360 - r)` and its `pts` is restored from
the original frame; without metadata the frame passes through unchanged. -/
def applyRotationCorrection (rotateMeta : Option Int) (image : AVFrame) :
    AVFrame :=
  match rotateMeta with
  | none => image
  | some r =>
    let old_image := image
    let image : AVFrame := ⟨0, rotate_image old_image.data (360 - r)⟩
    ⟨old_image.pts, image.data⟩

/-- The `(image, source_path, pts)` triple yielded by `VideoReader._decode`
for one decoded frame. -/
def decodeYield (sourcePath : String) (rotateMeta : Option Int)
    (image : AVFrame) : AVFrame × String × Int :=
  let image := applyRotationCorrection rotateMeta image
  (image, sourcePath, image.pts)

/-! ## Point-cloud header parsing (`ValidateDimension.get_pcd_properties`) -/

/-- One line read from the stream handed to `get_pcd_properties`: a byte
string with its decoded text, a byte string that is not valid UTF-8 (whose
`decode` raises `UnicodeDecodeError`), or a non-bytes object such as a
text-mode line (whose missing `decode` attribute raises `AttributeError`). -/
inductive HeaderLine where
  | bytes (text : String)
  | badBytes
  | nonBytes
deriving DecidableEq, Repr

/-- Python `line.startswith("#")`. -/
def startsWithHash (s : String) : Bool :=
  match s.data with
  | [] => false
  | c :: _ => c == '#'

/-- Helper for `splitFirstSpace`: split a character list at the first space. -/
def splitCharsAtFirstSpace : List Char → Option (List Char × List Char)
  | [] => none
  | c :: cs =>
    if c == ' ' then some ([], cs)
    else
      match splitCharsAtFirstSpace cs with
      | none => none
      | some (a, b) => some (c :: a, b)

/-- Python `line.split(" ", maxsplit=1)` viewed through the unpacking
`k, v = ...`: `none` when the line holds no space (so the unpacking raises
`ValueError`). -/
def splitFirstSpace (s : String) : Option (String × String) :=
  match splitCharsAtFirstSpace s.data with
  | none => none
  | some (a, b) => some (String.mk a, String.mk b)

/-- Does the first character list start with the second? -/
def charsStartWith : List Char → List Char → Bool
  | _, [] => true
  | [], _ :: _ => false
  | a :: as, b :: bs => a == b && charsStartWith as bs

/-- Python `pat in s` for strings: substring containment. -/
def charsContains : List Char → List Char → Bool
  | [], pat => charsStartWith [] pat
  | c :: cs, pat => charsStartWith (c :: cs) pat || charsContains cs pat

/-- Python `str.strip()`: drop leading and trailing whitespace. -/
def pyStrip (s : String) : String :=
  String.mk (((s.data.dropWhile Char.isWhitespace).reverse.dropWhile
    Char.isWhitespace).reverse)

/-- Python dict assignment `kv[k] = v` on an insertion-ordered association
list: overwrite in place when the key exists, else append. -/
def dictInsert (kv : List (String × String)) (k v : String) :
    List (String × String) :=
  if kv.any (fun p => p.1 == k) then
    kv.map (fun p => if p.1 == k then (k, v) else p)
  else kv ++ [(k, v)]

/-- Python dict subscript `kv[k]`: `KeyError` when the key is absent. -/
def dictGet (kv : List (String × String)) (k : String) : Except PyError String :=
  match kv.find? (fun p => p.1 == k) with
  | some p => Except.ok p.2
  | none => Except.error PyError.keyError

/-- The `for line in fp` loop of `get_pcd_properties`: skip `#` lines, split
each line on the first space into `kv[k] = v.strip()`, stop at a line
containing `DATA`.  A non-bytes line raises `AttributeError`, which the
enclosing `try` turns into `None` (`Except.ok none`); a non-decodable line or
a line without a space raises an exception the `except AttributeError` clause
does not catch. -/
def pcdHeaderLoop : List HeaderLine → List (String × String) →
    Except PyError (Option (List (String × String)))
  | [], kv => Except.ok (some kv)
  | line :: rest, kv =>
    match line with
    | HeaderLine.nonBytes => Except.ok none
    | HeaderLine.badBytes => Except.error PyError.unicodeDecodeError
    | HeaderLine.bytes text =>
      if startsWithHash text then pcdHeaderLoop rest kv
      else
        match splitFirstSpace text with
        | none => Except.error PyError.valueError
        | some (k, v) =>
          let kv := dictInsert kv k (pyStrip v)
          if charsContains text.data ['D', 'A', 'T', 'A'] then
            Except.ok (some kv)
          else pcdHeaderLoop rest kv

/-- The union-typed result of `get_pcd_properties`: the parsed dict, the
`True` returned under `verify_version`, or the `None` fallback. -/
inductive PcdResult where
  | props (kv : List (String × String))
  | versionOk
  | noProps
deriving DecidableEq, Repr

/-- The known PCD version markers accepted under `verify_version`. -/
def pcd_version : List String :=
  [("0.7"), ("0.6"), ("0.5"), ("0.4"), ("0.3"), ("0.2"), ("0.1"),
   (".7"), (".6"), (".5"), (".4"), (".3"), (".2"), (".1")]

/-- `ValidateDimension.get_pcd_properties(fp, verify_version)`. -/
def get_pcd_properties (lines : List HeaderLine) (verify_version : Bool) :
    Except PyError PcdResult :=
  match pcdHeaderLoop lines [] with
  | Except.error e => Except.error e
  | Except.ok none => Except.ok PcdResult.noProps
  | Except.ok (some kv) =>
    if verify_version then
      match kv.find? (fun p => p.1 == ("VERSION")) with
      | some p =>
        if pcd_version.contains p.2 then Except.ok PcdResult.versionOk
        else Except.ok PcdResult.noProps
      | none => Except.ok PcdResult.noProps
    else Except.ok (PcdResult.props kv)

/-! ## Chunk writers -/

/-- A frame handed to a chunk writer: its pixel dimensions plus, for
point-cloud entries, the header lines the pcd parser would read from its byte
buffer. -/
structure MediaFrame where
  width : Nat
  height : Nat
  header : List HeaderLine
deriving DecidableEq, Repr

/-- The `(image, path, index-or-pts)` triples passed to `save_as_chunk`. -/
abbrev MediaItem := MediaFrame × String × Int

/-- Python `'{:06d}'.format(n)`. -/
def zfill6 (n : Nat) : String :=
  let s := toString n
  String.mk (List.replicate (6 - s.length) '0') ++ s

/-- The extension component `os.path.splitext(path)[1]` (simplified to:
everything from the last dot on, empty when the name has no dot). -/
def splitextExt (p : String) : String :=
  if p.data.contains '.' then
    String.mk ('.' :: (p.data.reverse.takeWhile (fun c => c != '.')).reverse)
  else ("")

/-- A `ZipChunkWriter` holds the `IChunkWriter.__init__` state: the requested
image quality and the dataset dimension. -/
structure ZipChunkWriter where
  image_quality : Nat
  dimension : DimensionType
deriving DecidableEq, Repr

/-- `ZipChunkWriter.save_as_chunk`: stores each frame byte-for-byte under a
zero-padded positional arcname and returns an empty size list (per the source
comment: files are written as-is and never decoded, so sizes are unknown).
The result is the archive entry-name list and the returned size list. -/
def ZipChunkWriter.save_as_chunk (_w : ZipChunkWriter)
    (images : List MediaItem) : List String × List (Nat × Nat) :=
  (images.enum.map (fun p => zfill6 p.1 ++ splitextExt p.2.2.1), [])

/-- `ZipCompressedChunkWriter` shares the `IChunkWriter.__init__` state. -/
structure ZipCompressedChunkWriter where
  image_quality : Nat
  dimension : DimensionType
deriving DecidableEq, Repr

/-- `IChunkWriter._compress_image`: re-encodes to JPEG and returns the
converted image's dimensions (RGB conversion and JPEG encoding preserve the
pixel dimensions; the returned byte buffer is abstracted away). -/
def _compress_image (image : MediaFrame) (_quality : Nat) : Nat × Nat :=
  (image.width, image.height)

/-- Decimal digits to a natural number. -/
def digitsToNat (cs : List Char) : Nat :=
  cs.foldl (fun acc c => acc * 10 + (c.toNat - 48)) 0

/-- Python `int(s)` on the strings this code feeds it (simplified to
non-negative decimal literals; anything else raises `ValueError`). -/
def pyInt (s : String) : Except PyError Nat :=
  if s.data ≠ [] ∧ s.data.all Char.isDigit then Except.ok (digitsToNat s.data)
  else Except.error PyError.valueError

/-- One iteration of the `ZipCompressedChunkWriter.save_as_chunk` loop: for
2D the frame is re-encoded to JPEG, for 3D the pcd header is parsed and
`int(properties["WIDTH"])`, `int(properties["HEIGHT"])` are read (subscripting
the `None` fallback raises `TypeError`); either way the arcname and the
`(w, h)` pair appended to `image_sizes` are produced. -/
def zipCompressedItem (w : ZipCompressedChunkWriter) (idx : Nat)
    (item : MediaItem) : Except PyError (String × (Nat × Nat)) :=
  match w.dimension with
  | DimensionType.DIM_2D =>
    let wh := _compress_image item.1 w.image_quality
    Except.ok (zfill6 idx ++ (".jpeg"), wh)
  | DimensionType.DIM_3D =>
    match get_pcd_properties item.1.header false with
    | Except.error e => Except.error e
    | Except.ok (PcdResult.props kv) =>
      match dictGet kv ("WIDTH") with
      | Except.error e => Except.error e
      | Except.ok ws =>
        match pyInt ws with
        | Except.error e => Except.error e
        | Except.ok wn =>
          match dictGet kv ("HEIGHT") with
          | Except.error e => Except.error e
          | Except.ok hs =>
            match pyInt hs with
            | Except.error e => Except.error e
            | Except.ok hn => Except.ok (zfill6 idx ++ (".pcd"), (wn, hn))
    | Except.ok _ => Except.error PyError.typeError

/-- The `for idx, (image, _, _) in enumerate(images)` loop of
`ZipCompressedChunkWriter.save_as_chunk`, accumulating archive entries and
`image_sizes` in order. -/
def zipCompressedLoop (w : ZipCompressedChunkWriter) (idx : Nat) :
    List MediaItem → Except PyError (List String × List (Nat × Nat))
  | [] => Except.ok ([], [])
  | item :: rest =>
    match zipCompressedItem w idx item with
    | Except.error e => Except.error e
    | Except.ok r =>
      match zipCompressedLoop w (idx + 1) rest with
      | Except.error e => Except.error e
      | Except.ok rs => Except.ok (r.1 :: rs.1, r.2 :: rs.2)

/-- `ZipCompressedChunkWriter.save_as_chunk`. -/
def ZipCompressedChunkWriter.save_as_chunk (w : ZipCompressedChunkWriter)
    (images : List MediaItem) :
    Except PyError (List String × List (Nat × Nat)) :=
  zipCompressedLoop w 0 images

/-- The options dict passed to the encoder stream. -/
structure StreamOptions where
  profile : String
  qmin : Nat
  qmax : Nat
  rc_mode : String
deriving DecidableEq, Repr

/-- The output video stream configured by `_create_av_container`. -/
structure AVStream where
  width : Nat
  height : Nat
  rate : Nat
  options : StreamOptions
deriving DecidableEq, Repr

/-- `Mpeg4ChunkWriter._create_av_container`: bumps odd width/height up to
even (x264 yuv420p constraint) and configures the output stream. -/
def _create_av_container (w h rate : Nat) (options : StreamOptions) :
    AVStream :=
  let h := if h % 2 = 1 then h + 1 else h
  let w := if w % 2 = 1 then w + 1 else w
  ⟨w, h, rate, options⟩

/-- What a video `save_as_chunk` call produces: the configured stream and the
returned size list. -/
structure EncodeResult where
  stream : AVStream
  sizes : List (Nat × Nat)
deriving DecidableEq, Repr

/-- `Mpeg4ChunkWriter` state after `__init__`. -/
structure Mpeg4ChunkWriter where
  image_quality : Nat
  output_fps : Nat
deriving DecidableEq, Repr

/-- `Mpeg4ChunkWriter.__init__(_)`: ignores its argument and stores the fixed
quality 17 and 25 fps. -/
def Mpeg4ChunkWriter.init (_quality : Nat) : Mpeg4ChunkWriter := ⟨17, 25⟩

/-- `Mpeg4ChunkWriter.save_as_chunk`: raises on an empty frame list, encodes
at the first frame's dimensions with `qmin = qmax = image_quality`, and
returns the single pair `[(input_w, input_h)]`. -/
def Mpeg4ChunkWriter.save_as_chunk (wtr : Mpeg4ChunkWriter)
    (images : List MediaItem) : Except String EncodeResult :=
  match images with
  | [] => Except.error ("no images to save")
  | img0 :: _ =>
    let input_w := img0.1.width
    let input_h := img0.1.height
    let stream := _create_av_container input_w input_h wtr.output_fps
      ⟨("constrained_baseline"), wtr.image_quality, wtr.image_quality,
        ("buffer")⟩
    Except.ok ⟨stream, [(input_w, input_h)]⟩

/-- Python `round` on the exact rational `num / den` (banker's rounding: a
tie goes to the even quotient).  For the quality mapping below the rational is
never exactly halfway between integers, and the double Python actually rounds
is far closer to the rational than to any halfway point, so this models
`round(51 * (100 - quality) / 99)` exactly on the public range. -/
def pythonRound (num den : Nat) : Nat :=
  let q := num / den
  let r := num % den
  if 2 * r < den then q
  else if den < 2 * r then q + 1
  else if q % 2 = 0 then q else q + 1

/-- `Mpeg4CompressedChunkWriter` state after `__init__`. -/
structure Mpeg4CompressedChunkWriter where
  image_quality : Nat
  output_fps : Nat
deriving DecidableEq, Repr

/-- `Mpeg4CompressedChunkWriter.__init__(quality)`: translates the inverted
range [1:100] to [0:51] via `round(51 * (100 - quality) / 99)`. -/
def Mpeg4CompressedChunkWriter.init (quality : Nat) :
    Mpeg4CompressedChunkWriter :=
  ⟨pythonRound (51 * (100 - quality)) 99, 25⟩

/-- `downscale_factor = 1; while input_h / downscale_factor >= 1080:
downscale_factor *= 2` — the float comparison `h / f >= 1080` holds exactly
when `1080 * f <= h`. -/
def downscaleLoop (h f : Nat) (hf : 0 < f) : Nat :=
  if _hcond : 1080 * f ≤ h then downscaleLoop h (2 * f) (by omega) else f
termination_by h + 1 - f
decreasing_by omega

/-- The downscale factor computed by
`Mpeg4CompressedChunkWriter.save_as_chunk` for a first-frame height `h`. -/
def downscaleFactor (h : Nat) : Nat := downscaleLoop h 1 (by omega)

/-- The `output_w = input_w // downscale_factor`,
`output_h = input_h // downscale_factor` computed by
`Mpeg4CompressedChunkWriter.save_as_chunk` and passed to the encoder. -/
def mpeg4CompressedOutputDims (input_w input_h : Nat) : Nat × Nat :=
  let downscale_factor := downscaleFactor input_h
  (input_w / downscale_factor, input_h / downscale_factor)

/-- `Mpeg4CompressedChunkWriter.save_as_chunk`: raises on an empty frame
list, downscales the first frame's dimensions, encodes with
`qmin = qmax = image_quality`, and returns the single pair
`[(input_w, input_h)]`. -/
def Mpeg4CompressedChunkWriter.save_as_chunk (wtr : Mpeg4CompressedChunkWriter)
    (images : List MediaItem) : Except String EncodeResult :=
  match images with
  | [] => Except.error ("no images to save")
  | img0 :: _ =>
    let input_w := img0.1.width
    let input_h := img0.1.height
    let dims := mpeg4CompressedOutputDims input_w input_h
    let stream := _create_av_container dims.1 dims.2 wtr.output_fps
      ⟨("constrained_baseline"), wtr.image_quality, wtr.image_quality,
        ("buffer")⟩
    Except.ok ⟨stream, [(input_w, input_h)]⟩

/-! ## `ValidateDimension.validate` -/

/-- The mutable state `ValidateDimension.__init__` sets up: `dimension`
starts at 2D, the association map `related_files`, the `image_files` map and
the `converted_files` list start empty. -/
structure VDState where
  dimension : DimensionType
  related_files : List (String × List String)
  image_files : List (String × String)
  converted_files : List String
deriving DecidableEq, Repr

/-- `ValidateDimension.__init__`. -/
def VDState.initial : VDState := ⟨DimensionType.DIM_2D, [], [], []⟩

/-- The primitive state mutations the three per-directory handlers
(`validate_velodyne_points`, `validate_pointcloud`, `validate_default`, via
`process_files`) perform during the tree walk: create an empty
`related_files[path]` entry, append a related file to an existing entry, set
an `image_files` entry, record a converted file.  None of them touches
`dimension`.  The filesystem-driven choice of which mutations happen is
abstracted as the trace of mutations itself. -/
inductive WalkAction where
  | newRelated (path : String)
  | appendRelated (path file : String)
  | setImage (name path : String)
  | addConverted (path : String)
deriving DecidableEq, Repr

/-- Apply one walk mutation to the state. -/
def applyAction (s : VDState) (a : WalkAction) : VDState :=
  match a with
  | WalkAction.newRelated p =>
    { s with related_files :=
        if s.related_files.any (fun q => q.1 == p) then
          s.related_files.map (fun q => if q.1 == p then (p, []) else q)
        else s.related_files ++ [(p, [])] }
  | WalkAction.appendRelated p f =>
    { s with related_files := s.related_files.map (fun q => if q.1 == p then (q.1, q.2 ++ [f]) else q) }
  | WalkAction.setImage n p =>
    { s with image_files := dictInsert s.image_files n p }
  | WalkAction.addConverted p =>
    { s with converted_files := s.converted_files ++ [p] }

/-- `ValidateDimension.validate()` on a fresh instance: return immediately
when `self.path` is falsy (`None` or empty), otherwise run the full tree walk
(abstracted as its trace of state mutations) and finally set `dimension` to
3D when `len(self.related_files.keys())` is non-zero. -/
def ValidateDimension.validate (path : Option String)
    (walk : List WalkAction) : VDState :=
  if (match path with
      | none => true
      | some s => s.isEmpty) then VDState.initial
  else
    let s := walk.foldl applyAction VDState.initial
    if s.related_files.length ≠ 0 then
      { s with dimension := DimensionType.DIM_3D }
    else s

/-! # Theorems -/

theorem pythonRange_eq (start stop step : Nat) :
    pythonRange start stop step =
      if 0 < step ∧ start < stop then
        start :: pythonRange (start + step) stop step
      else [] := by
  rw [pythonRange]
  split <;> simp_all

theorem pythonRange_length_aux :
    ∀ (d start stop step : Nat), 0 < step → stop - start ≤ d →
      (pythonRange start stop step).length = (stop - start + step - 1) / step := by
  intro d
  induction d with
  | zero =>
    intro start stop step hs hd
    rw [pythonRange_eq]
    have hss : ¬ (0 < step ∧ start < stop) := by omega
    rw [if_neg hss]
    have h0 : stop - start = 0 := by omega
    rw [h0]
    simp only [List.length_nil, Nat.zero_add]
    exact (Nat.div_eq_of_lt (by omega)).symm
  | succ n ih =>
    intro start stop step hs hd
    rw [pythonRange_eq]
    by_cases h : 0 < step ∧ start < stop
    · rw [if_pos h]
      have hrec : (pythonRange (start + step) stop step).length =
          (stop - (start + step) + step - 1) / step := by
        apply ih _ _ _ hs
        omega
      rw [List.length_cons, hrec]
      by_cases hcase : stop ≤ start + step
      · have h1 : stop - (start + step) = 0 := by omega
        rw [h1]
        have h2 : (0 + step - 1) / step = 0 := Nat.div_eq_of_lt (by omega)
        rw [h2]
        have h3 : (stop - start + step - 1) / step = 1 := by
          apply Nat.div_eq_of_lt_le
          · omega
          · omega
        omega
      · have h1 : stop - (start + step) + step - 1 = stop - start - 1 := by omega
        have h2 : stop - start + step - 1 = (stop - start - 1) + step := by omega
        rw [h1, h2, Nat.add_div_right _ hs]
    · rw [if_neg h]
      have h0 : stop - start = 0 := by omega
      rw [h0]
      simp only [List.length_nil, Nat.zero_add]
      exact (Nat.div_eq_of_lt (by omega)).symm

theorem pythonRange_length (start stop step : Nat) (hs : 0 < step) :
    (pythonRange start stop step).length = (stop - start + step - 1) / step :=
  pythonRange_length_aux (stop - start) start stop step hs (Nat.le_refl _)

theorem pythonRange_mem_aux :
    ∀ (d start stop step : Nat), 0 < step → stop - start ≤ d →
      ∀ i, i ∈ pythonRange start stop step ↔ ∃ k, i = start + k * step ∧ i < stop := by
  intro d
  induction d with
  | zero =>
    intro start stop step hs hd i
    rw [pythonRange_eq]
    have hss : ¬ (0 < step ∧ start < stop) := by omega
    rw [if_neg hss]
    simp only [List.not_mem_nil, false_iff]
    rintro ⟨k, hk, hlt⟩
    omega
  | succ n ih =>
    intro start stop step hs hd i
    rw [pythonRange_eq]
    by_cases h : 0 < step ∧ start < stop
    · rw [if_pos h]
      have hrec := ih (start + step) stop step hs (by omega)
      simp only [List.mem_cons, hrec]
      constructor
      · rintro (rfl | ⟨k, hk, hlt⟩)
        · exact ⟨0, by omega, h.2⟩
        · refine ⟨k + 1, ?_, hlt⟩
          have hm : (k + 1) * step = k * step + step := by
            rw [Nat.add_mul, Nat.one_mul]
          omega
      · rintro ⟨k, hk, hlt⟩
        cases k with
        | zero =>
          left
          have hm : 0 * step = 0 := Nat.zero_mul step
          omega
        | succ m =>
          right
          refine ⟨m, ?_, hlt⟩
          have hm : (m + 1) * step = m * step + step := by
            rw [Nat.add_mul, Nat.one_mul]
          omega
    · rw [if_neg h]
      simp only [List.not_mem_nil, false_iff]
      rintro ⟨k, hk, hlt⟩
      omega

theorem pythonRange_mem (start stop step : Nat) (hs : 0 < step) (i : Nat) :
    i ∈ pythonRange start stop step ↔ ∃ k, i = start + k * step ∧ i < stop :=
  pythonRange_mem_aux (stop - start) start stop step hs (Nat.le_refl _) i

theorem pythonRange_pairwise_aux :
    ∀ (d start stop step : Nat), 0 < step → stop - start ≤ d →
      (pythonRange start stop step).Pairwise (· < ·) := by
  intro d
  induction d with
  | zero =>
    intro start stop step hs hd
    rw [pythonRange_eq]
    have hss : ¬ (0 < step ∧ start < stop) := by omega
    rw [if_neg hss]
    exact List.Pairwise.nil
  | succ n ih =>
    intro start stop step hs hd
    rw [pythonRange_eq]
    by_cases h : 0 < step ∧ start < stop
    · rw [if_pos h]
      refine List.Pairwise.cons ?_ (ih (start + step) stop step hs (by omega))
      intro x hx
      rcases (pythonRange_mem_aux n (start + step) stop step hs (by omega) x).mp hx with
        ⟨k, hk, _⟩
      omega
    · rw [if_neg h]
      exact List.Pairwise.nil

theorem pythonRange_pairwise (start stop step : Nat) (hs : 0 < step) :
    (pythonRange start stop step).Pairwise (· < ·) :=
  pythonRange_pairwise_aux (stop - start) start stop step hs (Nat.le_refl _)

/-- C1: an `ImageListReader` constructed from a non-empty path list with
parameters `(step, start, stop)` has effective stop `len(paths)` when `stop`
is `None` and `min(len(paths), stop + 1)` otherwise; iteration yields exactly
the indices `start, start + step, ...` strictly below the effective stop, in
strictly increasing order with no duplicates; and `length()` equals
`ceil((effective_stop - start) / step)` (with the stored step, i.e.
`max step 1`). -/
theorem imageListReader_spec (numPaths step start : Nat) (stopOpt : Option Nat)
    (r : ImageListReader)
    (h : ImageListReader.init numPaths step start stopOpt = some r) :
    r.stop = (match stopOpt with
      | none => numPaths
      | some s => min numPaths (s + 1)) ∧
    r.step = max step 1 ∧
    r.start = start ∧
    (∀ i, i ∈ r.iterIndices ↔ ∃ k, i = start + k * r.step ∧ i < r.stop) ∧
    r.iterIndices.Pairwise (· < ·) ∧
    r.iterIndices.Nodup ∧
    r.length = (r.stop - start + r.step - 1) / r.step := by
  have hr : r = ⟨max step 1, start, effectiveStop numPaths stopOpt⟩ := by
    unfold ImageListReader.init at h
    split at h
    · exact absurd h (by simp)
    · split at h
      · exact (Option.some_inj.mp h).symm
      · exact absurd h (by simp)
  subst hr
  have hs : 0 < max step 1 := by omega
  refine ⟨?_, rfl, rfl, ?_, ?_, ?_, ?_⟩
  · cases stopOpt <;> rfl
  · intro i
    exact pythonRange_mem start _ (max step 1) hs i
  · exact pythonRange_pairwise start _ (max step 1) hs
  · exact List.Pairwise.imp Nat.ne_of_lt
      (pythonRange_pairwise start _ (max step 1) hs)
  · exact pythonRange_length start _ (max step 1) hs

/-- Witness for C1 at `numPaths = 5`, `step = 2`, `start = 0`, `stop = None`. -/
theorem imageListReader_spec_witness :
    ImageListReader.init 5 2 0 none = some ⟨2, 0, 5⟩ ∧
    ((⟨2, 0, 5⟩ : ImageListReader).stop = 5 ∧
     (⟨2, 0, 5⟩ : ImageListReader).step = max 2 1 ∧
     (⟨2, 0, 5⟩ : ImageListReader).start = 0 ∧
     (∀ i, i ∈ (⟨2, 0, 5⟩ : ImageListReader).iterIndices ↔
        ∃ k, i = 0 + k * (⟨2, 0, 5⟩ : ImageListReader).step ∧
          i < (⟨2, 0, 5⟩ : ImageListReader).stop) ∧
     (⟨2, 0, 5⟩ : ImageListReader).iterIndices.Pairwise (· < ·) ∧
     (⟨2, 0, 5⟩ : ImageListReader).iterIndices.Nodup ∧
     (⟨2, 0, 5⟩ : ImageListReader).length =
       ((⟨2, 0, 5⟩ : ImageListReader).stop - 0 +
         (⟨2, 0, 5⟩ : ImageListReader).step - 1) /
         (⟨2, 0, 5⟩ : ImageListReader).step) :=
  ⟨rfl, imageListReader_spec 5 2 0 none ⟨2, 0, 5⟩ rfl⟩

/-- C2: for a `VideoReader` with parameters `(step, start, stop)`, the decoded
frame at zero-based position `i` is yielded iff `i >= start`,
`(i - start) % step == 0`, and `stop` was not given or `i < stop + 1`; the
requested stop is made inclusive by storing `stop + 1` internally. -/
theorem videoReader_has_frame_spec (step start : Nat) (stopOpt : Option Nat)
    (_hs : 0 < step) :
    (VideoReader.init step start stopOpt).stop =
      (match stopOpt with
        | none => none
        | some s => some (s + 1)) ∧
    (∀ i, (VideoReader.init step start stopOpt)._has_frame i = true ↔
      (start ≤ i ∧ (i - start) % step = 0 ∧
        (match stopOpt with
          | none => True
          | some s => i < s + 1))) ∧
    (∀ numFrames i,
      i ∈ (VideoReader.init step start stopOpt).decodedPositions numFrames ↔
        (i < numFrames ∧
          (VideoReader.init step start stopOpt)._has_frame i = true)) := by
  refine ⟨rfl, ?_, ?_⟩
  · intro i
    unfold VideoReader._has_frame VideoReader.init
    cases stopOpt with
    | none =>
      simp only [beq_iff_eq]
      constructor
      · intro hif
        split at hif
        · split at hif
          · exact ⟨by assumption, by assumption, trivial⟩
          · exact absurd hif (by simp)
        · exact absurd hif (by simp)
      · rintro ⟨h1, h2, _⟩
        rw [if_pos h1, if_pos (by simpa using h2)]
    | some s =>
      simp only [beq_iff_eq]
      constructor
      · intro hif
        split at hif
        · split at hif
          · simp only [decide_eq_true_eq] at hif
            exact ⟨by assumption, by assumption, hif⟩
          · exact absurd hif (by simp)
        · exact absurd hif (by simp)
      · rintro ⟨h1, h2, h3⟩
        rw [if_pos h1, if_pos (by simpa using h2)]
        simpa using h3
  · intro numFrames i
    unfold VideoReader.decodedPositions
    rw [List.mem_filter, List.mem_range]

/-- Witness for C2 at `step = 2`, `start = 1`, `stop = 4`. -/
theorem videoReader_has_frame_spec_witness :
    (VideoReader.init 2 1 (some 4)).stop = some (4 + 1) ∧
    (∀ i, (VideoReader.init 2 1 (some 4))._has_frame i = true ↔
      (1 ≤ i ∧ (i - 1) % 2 = 0 ∧ i < 4 + 1)) ∧
    (∀ numFrames i,
      i ∈ (VideoReader.init 2 1 (some 4)).decodedPositions numFrames ↔
        (i < numFrames ∧ (VideoReader.init 2 1 (some 4))._has_frame i = true)) :=
  videoReader_has_frame_spec 2 1 (some 4) (by decide)

/-- C3: a frame whose container stream declares rotation `r` is yielded
rotated by `360 - r` degrees (declared rotation 90 yields a 270-degree
corrective rotation of the raw pixels), and the yielded frame's `pts` equals
the `pts` of the un-rotated decoded frame. -/
theorem videoReader_rotation_spec (image : AVFrame) (r : Int)
    (sourcePath : String) :
    (applyRotationCorrection (some r) image).data =
      rotate_image image.data (360 - r) ∧
    (applyRotationCorrection (some r) image).pts = image.pts ∧
    (applyRotationCorrection (some 90) image).data =
      rotate_image image.data 270 ∧
    (decodeYield sourcePath (some r) image).2.2 = image.pts := by
  refine ⟨rfl, rfl, ?_, rfl⟩
  show rotate_image image.data (360 - 90) = rotate_image image.data 270
  norm_num

theorem pcdHeaderLoop_nonBytes (ls : List HeaderLine)
    (kv : List (String × String)) :
    pcdHeaderLoop (HeaderLine.nonBytes :: ls) kv = Except.ok none := rfl

/-- C7 counterexample: a header line that holds no space (so the unpacking
`k, v = line.split(" ", maxsplit=1)` fails) raises `ValueError` to the
caller instead of returning `None`. -/
theorem pcd_properties_counterexample :
    get_pcd_properties [HeaderLine.bytes ("WIDTH")] false =
      Except.error PyError.valueError := rfl

/-- C7 amended: `get_pcd_properties` returns no properties (`None`) only when
a line is not a byte string (the `AttributeError` from the missing `decode`
is the only caught exception); a line that cannot be UTF-8-decoded raises
`UnicodeDecodeError` and a line without a space raises `ValueError`, both of
which propagate to the caller. -/
theorem pcd_properties_amended (ls : List HeaderLine) (text : String)
    (vv : Bool) (hsp : splitFirstSpace text = none)
    (hhash : startsWithHash text = false) :
    get_pcd_properties (HeaderLine.nonBytes :: ls) vv =
      Except.ok PcdResult.noProps ∧
    get_pcd_properties (HeaderLine.badBytes :: ls) vv =
      Except.error PyError.unicodeDecodeError ∧
    get_pcd_properties (HeaderLine.bytes text :: ls) vv =
      Except.error PyError.valueError := by
  refine ⟨rfl, rfl, ?_⟩
  simp only [get_pcd_properties, pcdHeaderLoop, hhash, hsp, Bool.false_eq_true,
    if_false]

/-- Witness for C7's amended statement at a concrete malformed header. -/
theorem pcd_properties_amended_witness :
    (splitFirstSpace ("VERSION") = none ∧
     startsWithHash ("VERSION") = false) ∧
    (get_pcd_properties (HeaderLine.nonBytes :: []) true =
       Except.ok PcdResult.noProps ∧
     get_pcd_properties (HeaderLine.badBytes :: []) true =
       Except.error PyError.unicodeDecodeError ∧
     get_pcd_properties (HeaderLine.bytes ("VERSION") :: []) true =
       Except.error PyError.valueError) :=
  ⟨⟨by decide, by decide⟩,
   pcd_properties_amended [] ("VERSION") true (by decide) (by decide)⟩

/-- C8: `save_as_chunk` on an empty frame list raises `no images to save`
for both video writers and succeeds with an empty archive and empty size
list for both zip writers. -/
theorem save_as_chunk_empty_spec (q : Nat) (d : DimensionType) :
    (Mpeg4ChunkWriter.init q).save_as_chunk [] =
      Except.error ("no images to save") ∧
    (Mpeg4CompressedChunkWriter.init q).save_as_chunk [] =
      Except.error ("no images to save") ∧
    ZipChunkWriter.save_as_chunk ⟨q, d⟩ [] = ([], []) ∧
    ZipCompressedChunkWriter.save_as_chunk ⟨q, d⟩ [] = Except.ok ([], []) :=
  ⟨rfl, rfl, rfl, rfl⟩

/-- C6 counterexample: `Mpeg4ChunkWriter.save_as_chunk` on two input frames
returns a single `(width, height)` pair, not one pair per input frame. -/
theorem mpeg4_sizes_counterexample :
    ∃ res, (Mpeg4ChunkWriter.init 50).save_as_chunk
        [(⟨100, 200, []⟩, ("a.png"), 0), (⟨300, 400, []⟩, ("b.png"), 1)] =
        Except.ok res ∧ res.sizes = [(100, 200)] ∧ res.sizes.length ≠ 2 :=
  ⟨_, rfl, rfl, by decide⟩

theorem zipCompressedLoop_2d (wq : Nat) :
    ∀ (l : List MediaItem) (i : Nat), ∃ es,
      zipCompressedLoop ⟨wq, DimensionType.DIM_2D⟩ i l =
        Except.ok (es, l.map (fun it => (it.1.width, it.1.height))) := by
  intro l
  induction l with
  | nil => intro i; exact ⟨[], rfl⟩
  | cons item rest ih =>
    intro i
    obtain ⟨es, hes⟩ := ih (i + 1)
    refine ⟨(zfill6 i ++ (".jpeg")) :: es, ?_⟩
    simp only [zipCompressedLoop, zipCompressedItem, _compress_image,
      List.map_cons]
    rw [hes]

/-- C6 amended: `ZipChunkWriter` returns an empty size list for every input;
`ZipCompressedChunkWriter` (2D) returns one `(width, height)` pair per input
frame, in frame order, matching the re-encoded frames' dimensions; but the
video writers (`Mpeg4ChunkWriter`, `Mpeg4CompressedChunkWriter`) return a
single pair holding the first input frame's dimensions, regardless of the
number of frames. -/
theorem save_as_chunk_sizes_spec (q : Nat) (d : DimensionType)
    (images : List MediaItem) (img0 : MediaItem) (rest : List MediaItem)
    (himg : images = img0 :: rest) :
    (ZipChunkWriter.save_as_chunk ⟨q, d⟩ images).2 = [] ∧
    (∃ entries,
      ZipCompressedChunkWriter.save_as_chunk ⟨q, DimensionType.DIM_2D⟩ images =
        Except.ok (entries, images.map (fun it => (it.1.width, it.1.height)))) ∧
    (∃ res, (Mpeg4ChunkWriter.init q).save_as_chunk images = Except.ok res ∧
      res.sizes = [(img0.1.width, img0.1.height)]) ∧
    (∃ res, (Mpeg4CompressedChunkWriter.init q).save_as_chunk images =
        Except.ok res ∧
      res.sizes = [(img0.1.width, img0.1.height)]) := by
  subst himg
  refine ⟨rfl, ?_, ?_, ?_⟩
  · exact zipCompressedLoop_2d q (img0 :: rest) 0
  · exact ⟨_, rfl, rfl⟩
  · exact ⟨_, rfl, rfl⟩

/-- Witness for C6's amended statement on a single concrete frame. -/
theorem save_as_chunk_sizes_spec_witness :
    ([(⟨7, 9, []⟩, ("x.png"), 0)] : List MediaItem) =
      (⟨7, 9, []⟩, ("x.png"), 0) :: [] ∧
    ((ZipChunkWriter.save_as_chunk ⟨60, DimensionType.DIM_2D⟩
        [(⟨7, 9, []⟩, ("x.png"), 0)]).2 = [] ∧
     (∃ entries,
       ZipCompressedChunkWriter.save_as_chunk ⟨60, DimensionType.DIM_2D⟩
           [(⟨7, 9, []⟩, ("x.png"), 0)] =
         Except.ok (entries,
           ([(⟨7, 9, []⟩, ("x.png"), 0)] : List MediaItem).map
             (fun it => (it.1.width, it.1.height)))) ∧
     (∃ res, (Mpeg4ChunkWriter.init 60).save_as_chunk
         [(⟨7, 9, []⟩, ("x.png"), 0)] = Except.ok res ∧
       res.sizes = [(7, 9)]) ∧
     (∃ res, (Mpeg4CompressedChunkWriter.init 60).save_as_chunk
         [(⟨7, 9, []⟩, ("x.png"), 0)] = Except.ok res ∧
       res.sizes = [(7, 9)])) :=
  ⟨rfl, save_as_chunk_sizes_spec 60 DimensionType.DIM_2D
    [(⟨7, 9, []⟩, ("x.png"), 0)] (⟨7, 9, []⟩, ("x.png"), 0) [] rfl⟩

/-- C10: `Mpeg4ChunkWriter.__init__` ignores the supplied quality and stores
17, which `save_as_chunk` uses as both `qmin` and `qmax`. -/
theorem mpeg4_quality_constant_spec (q : Nat) (images : List MediaItem)
    (h : images ≠ []) :
    (Mpeg4ChunkWriter.init q).image_quality = 17 ∧
    (∃ res, (Mpeg4ChunkWriter.init q).save_as_chunk images = Except.ok res ∧
      res.stream.options.qmin = 17 ∧ res.stream.options.qmax = 17) := by
  refine ⟨rfl, ?_⟩
  cases images with
  | nil => exact absurd rfl h
  | cons img0 rest => exact ⟨_, rfl, rfl, rfl⟩

/-- Witness for C10 at quality 95 and one concrete frame. -/
theorem mpeg4_quality_constant_spec_witness :
    ([(⟨640, 480, []⟩, ("v.mp4"), 0)] : List MediaItem) ≠ [] ∧
    ((Mpeg4ChunkWriter.init 95).image_quality = 17 ∧
     (∃ res, (Mpeg4ChunkWriter.init 95).save_as_chunk
         [(⟨640, 480, []⟩, ("v.mp4"), 0)] = Except.ok res ∧
       res.stream.options.qmin = 17 ∧ res.stream.options.qmax = 17)) :=
  ⟨by decide, mpeg4_quality_constant_spec 95 _ (by decide)⟩

set_option maxHeartbeats 1000000 in
set_option maxRecDepth 100000 in
theorem pythonRound_quality_antitone :
    ∀ a, a < 101 → ∀ b, b < 101 → a ≤ b →
      pythonRound (51 * (100 - b)) 99 ≤ pythonRound (51 * (100 - a)) 99 := by
  decide

/-- C4: for public quality `q` in `[1..100]`, `Mpeg4CompressedChunkWriter`
sets the encoder quality — used as both `qmin` and `qmax` — to
`round(51 * (100 - q) / 99)`; `q = 100` maps to 0, `q = 1` maps to 51, and
the mapping is monotonically decreasing in `q`. -/
theorem mpeg4_compressed_quality_spec (q : Nat) (h1 : 1 ≤ q) (h2 : q ≤ 100) :
    (Mpeg4CompressedChunkWriter.init q).image_quality =
      pythonRound (51 * (100 - q)) 99 ∧
    (Mpeg4CompressedChunkWriter.init 100).image_quality = 0 ∧
    (Mpeg4CompressedChunkWriter.init 1).image_quality = 51 ∧
    (∀ q2, q ≤ q2 → q2 ≤ 100 →
      (Mpeg4CompressedChunkWriter.init q2).image_quality ≤
        (Mpeg4CompressedChunkWriter.init q).image_quality) ∧
    (∀ images res,
      (Mpeg4CompressedChunkWriter.init q).save_as_chunk images =
          Except.ok res →
        res.stream.options.qmin = pythonRound (51 * (100 - q)) 99 ∧
        res.stream.options.qmax = pythonRound (51 * (100 - q)) 99) := by
  refine ⟨rfl, by decide, by decide, ?_, ?_⟩
  · intro q2 hq1 hq2
    exact pythonRound_quality_antitone q (by omega) q2 (by omega) hq1
  · intro images res hres
    cases images with
    | nil =>
      exact absurd hres (by simp [Mpeg4CompressedChunkWriter.save_as_chunk])
    | cons img0 rest =>
      simp only [Mpeg4CompressedChunkWriter.save_as_chunk,
        Except.ok.injEq] at hres
      subst hres
      exact ⟨rfl, rfl⟩

/-- Witness for C4 at `q = 50`. -/
theorem mpeg4_compressed_quality_spec_witness :
    1 ≤ 50 ∧ 50 ≤ 100 ∧
    ((Mpeg4CompressedChunkWriter.init 50).image_quality =
      pythonRound (51 * (100 - 50)) 99 ∧
     (Mpeg4CompressedChunkWriter.init 100).image_quality = 0 ∧
     (Mpeg4CompressedChunkWriter.init 1).image_quality = 51 ∧
     (∀ q2, 50 ≤ q2 → q2 ≤ 100 →
       (Mpeg4CompressedChunkWriter.init q2).image_quality ≤
         (Mpeg4CompressedChunkWriter.init 50).image_quality) ∧
     (∀ images res,
       (Mpeg4CompressedChunkWriter.init 50).save_as_chunk images =
           Except.ok res →
         res.stream.options.qmin = pythonRound (51 * (100 - 50)) 99 ∧
         res.stream.options.qmax = pythonRound (51 * (100 - 50)) 99)) :=
  ⟨by decide, by decide,
   mpeg4_compressed_quality_spec 50 (by decide) (by decide)⟩

theorem downscaleLoop_spec :
    ∀ (n h f : Nat) (hf : 0 < f), h + 1 - f ≤ n →
      ∃ j, downscaleLoop h f hf = f * 2 ^ j ∧ h < 1080 * (f * 2 ^ j) ∧
        ∀ j2, h < 1080 * (f * 2 ^ j2) → j ≤ j2 := by
  intro n
  induction n with
  | zero =>
    intro h f hf hn
    rw [downscaleLoop]
    have hc : ¬ 1080 * f ≤ h := by omega
    rw [dif_neg hc]
    refine ⟨0, by simp, by simpa using (by omega : h < 1080 * f),
      fun j2 _ => Nat.zero_le j2⟩
  | succ n ih =>
    intro h f hf hn
    rw [downscaleLoop]
    by_cases hc : 1080 * f ≤ h
    · rw [dif_pos hc]
      obtain ⟨j, hj1, hj2, hj3⟩ := ih h (2 * f) (by omega) (by omega)
      refine ⟨j + 1, ?_, ?_, ?_⟩
      · rw [hj1]; ring
      · calc h < 1080 * (2 * f * 2 ^ j) := hj2
          _ = 1080 * (f * 2 ^ (j + 1)) := by ring
      · intro j2 hj2lt
        cases j2 with
        | zero =>
          exfalso
          simp only [pow_zero, Nat.mul_one] at hj2lt
          omega
        | succ m =>
          have hm : h < 1080 * (2 * f * 2 ^ m) := by
            calc h < 1080 * (f * 2 ^ (m + 1)) := hj2lt
              _ = 1080 * (2 * f * 2 ^ m) := by ring
          exact Nat.succ_le_succ (hj3 m hm)
    · rw [dif_neg hc]
      refine ⟨0, by simp, by simpa using (by omega : h < 1080 * f),
        fun j2 _ => Nat.zero_le j2⟩

/-- C5: `Mpeg4CompressedChunkWriter.save_as_chunk` downscales by the smallest
power of two `2 ^ k` such that `H / 2 ^ k < 1080` (`k = 0` when `H < 1080`),
and the output dimensions passed to the encoder are `W // 2 ^ k` and
`H // 2 ^ k` — both axes reduced by the identical factor. -/
theorem mpeg4_compressed_downscale_spec (w h : Nat) :
    ∃ k, downscaleFactor h = 2 ^ k ∧
      h < 1080 * 2 ^ k ∧
      (∀ j, h < 1080 * 2 ^ j → k ≤ j) ∧
      (h < 1080 → downscaleFactor h = 1) ∧
      mpeg4CompressedOutputDims w h = (w / 2 ^ k, h / 2 ^ k) := by
  obtain ⟨k, h1, h2, h3⟩ := downscaleLoop_spec (h + 1) h 1 (by omega) (by omega)
  simp only [Nat.one_mul] at h1 h2 h3
  have hfac : downscaleFactor h = 2 ^ k := h1
  refine ⟨k, hfac, h2, h3, ?_, ?_⟩
  · intro hlt
    have hk0 : k ≤ 0 := h3 0 (by simpa using hlt)
    have : k = 0 := by omega
    rw [hfac, this, pow_zero]
  · unfold mpeg4CompressedOutputDims
    rw [hfac]

/-- Witness for C5 at `w = 1920`, `h = 2160`. -/
theorem mpeg4_compressed_downscale_spec_witness :
    ∃ k, downscaleFactor 2160 = 2 ^ k ∧
      2160 < 1080 * 2 ^ k ∧
      (∀ j, 2160 < 1080 * 2 ^ j → k ≤ j) ∧
      (2160 < 1080 → downscaleFactor 2160 = 1) ∧
      mpeg4CompressedOutputDims 1920 2160 = (1920 / 2 ^ k, 2160 / 2 ^ k) :=
  mpeg4_compressed_downscale_spec 1920 2160

theorem foldl_applyAction_dimension (walk : List WalkAction) :
    ∀ s : VDState, (walk.foldl applyAction s).dimension = s.dimension := by
  induction walk with
  | nil => intro s; rfl
  | cons a rest ih =>
    intro s
    rw [List.foldl_cons, ih]
    cases a <;> rfl

/-- C9: after `ValidateDimension.validate()` completes on a fresh instance,
the dataset dimension is 3D iff the association map `related_files` is
non-empty; otherwise it remains at its initial 2D value. -/
theorem validate_dimension_spec (path : Option String)
    (walk : List WalkAction) :
    ((ValidateDimension.validate path walk).dimension = DimensionType.DIM_3D ↔
      (ValidateDimension.validate path walk).related_files ≠ []) ∧
    ((ValidateDimension.validate path walk).related_files = [] →
      (ValidateDimension.validate path walk).dimension =
        DimensionType.DIM_2D) := by
  unfold ValidateDimension.validate
  split
  · exact ⟨by decide, fun _ => rfl⟩
  · have hdim : (walk.foldl applyAction VDState.initial).dimension =
        DimensionType.DIM_2D :=
      foldl_applyAction_dimension walk VDState.initial
    by_cases hrel : (walk.foldl applyAction VDState.initial).related_files.length ≠ 0
    · rw [if_pos hrel]
      have hne : (walk.foldl applyAction VDState.initial).related_files ≠ [] := by
        intro hc
        rw [hc] at hrel
        exact hrel rfl
      exact ⟨⟨fun _ => hne, fun _ => rfl⟩, fun hc => absurd hc hne⟩
    · rw [if_neg hrel]
      push_neg at hrel
      have heq : (walk.foldl applyAction VDState.initial).related_files = [] :=
        List.length_eq_zero.mp hrel
      refine ⟨⟨fun h3 => absurd (hdim.symm.trans h3) (by decide),
        fun hne => absurd heq hne⟩, fun _ => hdim⟩

/-- Witness for C9 on a concrete one-action walk. -/
theorem validate_dimension_spec_witness :
    (((ValidateDimension.validate (some ("root"))
        [WalkAction.newRelated ("a.pcd")]).dimension = DimensionType.DIM_3D) ↔
      ((ValidateDimension.validate (some ("root"))
        [WalkAction.newRelated ("a.pcd")]).related_files ≠ [])) ∧
    ((ValidateDimension.validate (some ("root"))
        [WalkAction.newRelated ("a.pcd")]).related_files = [] →
      (ValidateDimension.validate (some ("root"))
        [WalkAction.newRelated ("a.pcd")]).dimension = DimensionType.DIM_2D) :=
  validate_dimension_spec (some ("root")) [WalkAction.newRelated ("a.pcd")]
